import Mathlib

/-!
Verification of the Local Service Supervisor and Database Bootstrap Engine
of the portable-postgis-app repository, against its specification.

The development shallowly embeds the relevant JavaScript source:

* the `ProcessManager` class (service supervisor keyed by service id):
  its `start`/`stop` methods and the `close`/`error` child-process event
  handlers, over an explicit state `ProcessManager` (the `this.processes`
  map as an association list);
* the data-directory audit/repair/re-initialization logic of
  `startPostgres` (marker/config check, required-directory repair loop,
  integrity check of the `base` and `global` subdirectories, purge before
  `initdb`), over an explicit directory state `DirState`;
* the readiness poll `waitForPort` (500 ms interval, 200 ms per-attempt
  socket timeout, 30 s deadline), discretized over poll ticks;
* the extension-reconciliation phase of `ensureDatabaseFixed`
  (catalog query, control-file probes, per-extension enable attempts).

Node.js semantics captured by the embedding: `spawn` returns a child
handle synchronously and reports a spawn failure asynchronously through
the `error` event, so a handle exists (and can be registered) even when
the spawn will fail; a promise settles at most once, so the first
`resolve`/`reject` wins; reading an undeclared (block-scoped-elsewhere)
identifier throws a `ReferenceError`.
-/

/-- A child handle as returned by `spawn`. `spawn` never fails
synchronously for a missing binary: it returns a handle and emits the
failure later through the `error` event. The `spawnWillFail` field is
that latent outcome; the supervisor code never reads it synchronously. -/
structure SpawnedChild where
  handle : Nat
  spawnWillFail : Bool
deriving DecidableEq, Repr

/-- The `ProcessManager` instance: its `this.processes` map, id to child,
as an association list. -/
structure ProcessManager where
  processes : List (String × SpawnedChild)
deriving DecidableEq, Repr

/-- Property access `this.processes[id]`. -/
def findProc : List (String × SpawnedChild) → String → Option SpawnedChild
  | [], _ => none
  | e :: es, sid => if e.1 == sid then some e.2 else findProc es sid

/-- The child currently tracked for a service id, if any. -/
def ProcessManager.tracked (st : ProcessManager) (sid : String) : Option SpawnedChild :=
  findProc st.processes sid

/-- Log line of the redundant-start branch of `ProcessManager.start`. -/
def alreadyRunningMsg (sid : String) : String :=
  "[" ++ sid ++ "] Process already running."

/-- Log line of the spawning branch of `ProcessManager.start`. -/
def startingMsg (sid command : String) (args : List String) : String :=
  "[" ++ sid ++ "] Starting " ++ command ++ " " ++ String.intercalate " " args

/-- What a call to `ProcessManager.start` produces synchronously: the
updated table, the log lines emitted, and whether `spawn` was invoked. -/
structure StartResult where
  state : ProcessManager
  logLines : List String
  spawned : Bool
deriving DecidableEq, Repr

/-- The `start(id, command, args, options, onLog)` method: a warning and
no spawn when the id is already tracked; otherwise it spawns and
registers the child under the id. Registration (`this.processes[id] =
child`) is synchronous and unconditional on the spawning path: a spawn
failure only surfaces later through the `error`/`close` events. -/
def ProcessManager.start (st : ProcessManager) (sid command : String)
    (args : List String) (child : SpawnedChild) : StartResult :=
  if (st.tracked sid).isSome then
    { state := st, logLines := [alreadyRunningMsg sid], spawned := false }
  else
    { state := ⟨st.processes ++ [(sid, child)]⟩
      logLines := [startingMsg sid command args]
      spawned := true }

/-- Deletion `delete this.processes[id]`. -/
def deleteProc (l : List (String × SpawnedChild)) (sid : String) :
    List (String × SpawnedChild) :=
  l.filter (fun e => !(e.1 == sid))

/-- The `stop(id)` method: kill and remove bookkeeping when tracked,
otherwise do nothing. -/
def ProcessManager.stop (st : ProcessManager) (sid : String) : ProcessManager :=
  match st.tracked sid with
  | some _ => ⟨deleteProc st.processes sid⟩
  | none => st

/-- The `close` event handler: removes the id from the table (and then
emits the process-exit notification, which does not touch the table). -/
def ProcessManager.onClose (st : ProcessManager) (sid : String) : ProcessManager :=
  ⟨deleteProc st.processes sid⟩

/-- Log line of the `error` event handler. -/
def failedToStartMsg (sid err : String) : String :=
  "[" ++ sid ++ "] Failed to start: " ++ err

/-- The `error` event handler: it only logs; it does not touch the
service table. -/
def ProcessManager.onError (st : ProcessManager) (sid err : String) :
    ProcessManager × List String :=
  (st, [failedToStartMsg sid err])

/-- The operations that mutate the service table over a run. -/
inductive PMOp where
  | start (sid command : String) (args : List String) (child : SpawnedChild)
  | stop (sid : String)
  | exited (sid : String)

/-- One operation applied to the table. -/
def applyOp (st : ProcessManager) : PMOp → ProcessManager
  | PMOp.start sid command args child => (st.start sid command args child).state
  | PMOp.stop sid => st.stop sid
  | PMOp.exited sid => st.onClose sid

/-- A whole run of operations from the freshly constructed manager. -/
def runOps (ops : List PMOp) : ProcessManager :=
  ops.foldl applyOp ⟨[]⟩

/-- Number of entries a given id has in the table. -/
def keyCount (l : List (String × SpawnedChild)) (sid : String) : Nat :=
  (l.filter (fun e => e.1 == sid)).length

theorem findProc_none_keyCount (sid : String) :
    ∀ l : List (String × SpawnedChild), findProc l sid = none → keyCount l sid = 0 := by
  intro l
  induction l with
  | nil => intro _; rfl
  | cons e es ih =>
    intro h
    by_cases hb : e.1 == sid
    · simp [findProc, hb] at h
    · have h2 : findProc es sid = none := by
        simpa [findProc, hb] using h
      simpa [keyCount, List.filter_cons, hb] using ih h2

theorem keyCount_append (l1 l2 : List (String × SpawnedChild)) (sid : String) :
    keyCount (l1 ++ l2) sid = keyCount l1 sid + keyCount l2 sid := by
  simp [keyCount, List.filter_append]

theorem keyCount_deleteProc_le (l : List (String × SpawnedChild)) (sid k : String) :
    keyCount (deleteProc l sid) k ≤ keyCount l k := by
  have hsub : List.Sublist (deleteProc l sid) l := List.filter_sublist l
  exact List.Sublist.length_le (List.Sublist.filter _ hsub)

theorem applyOp_keyCount (st : ProcessManager) (op : PMOp)
    (h : ∀ k, keyCount st.processes k ≤ 1) :
    ∀ k, keyCount (applyOp st op).processes k ≤ 1 := by
  intro k
  cases op with
  | start sid command args child =>
    by_cases ht : (st.tracked sid).isSome
    · simpa [applyOp, ProcessManager.start, ht] using h k
    · have hnone : findProc st.processes sid = none := by
        cases hcase : st.tracked sid with
        | some c => rw [hcase] at ht; simp at ht
        | none => simpa [ProcessManager.tracked] using hcase
      simp only [applyOp, ProcessManager.start, ht, if_false, Bool.false_eq_true]
      rw [keyCount_append]
      by_cases hk : sid = k
      · subst hk
        have h0 : keyCount st.processes sid = 0 := findProc_none_keyCount sid _ hnone
        have h1 : keyCount [(sid, child)] sid = 1 := by simp [keyCount]
        rw [h0, h1]
      · have hb : ((sid, child).1 == k) = false := by
          simp [hk]
        have h1 : keyCount [(sid, child)] k = 0 := by
          simp [keyCount, List.filter_cons, hb]
        simpa [h1] using h k
  | stop sid =>
    cases hcase : st.tracked sid with
    | some c =>
      calc keyCount (ProcessManager.stop st sid).processes k
          = keyCount (deleteProc st.processes sid) k := by
            simp [applyOp, ProcessManager.stop, hcase]
        _ ≤ keyCount st.processes k := keyCount_deleteProc_le _ _ _
        _ ≤ 1 := h k
    | none => simpa [applyOp, ProcessManager.stop, hcase] using h k
  | exited sid =>
    calc keyCount (ProcessManager.onClose st sid).processes k
        = keyCount (deleteProc st.processes sid) k := rfl
      _ ≤ keyCount st.processes k := keyCount_deleteProc_le _ _ _
      _ ≤ 1 := h k

theorem foldl_applyOp_keyCount (ops : List PMOp) :
    ∀ st : ProcessManager, (∀ k, keyCount st.processes k ≤ 1) →
      ∀ k, keyCount (ops.foldl applyOp st).processes k ≤ 1 := by
  induction ops with
  | nil => intro st h k; exact h k
  | cons op rest ih =>
    intro st h k
    exact ih (applyOp st op) (applyOp_keyCount st op h) k

/-- C2: across every sequence of start/stop/exit operations the service
table holds at most one entry per service id, and `start(id)` while the
id is already tracked is a no-op: it emits exactly the warning line,
leaves the table (hence the tracked child) unchanged, and spawns no new
process. -/
theorem claim2_service_table_invariant :
    (∀ (ops : List PMOp) (sid : String), keyCount (runOps ops).processes sid ≤ 1) ∧
    (∀ (st : ProcessManager) (sid command : String) (args : List String)
        (child existing : SpawnedChild), st.tracked sid = some existing →
      st.start sid command args child =
        { state := st, logLines := [alreadyRunningMsg sid], spawned := false } ∧
      (st.start sid command args child).state.tracked sid = some existing) := by
  constructor
  · intro ops sid
    exact foldl_applyOp_keyCount ops ⟨[]⟩ (fun k => by simp [keyCount]) sid
  · intro st sid command args child existing h
    have hsome : (st.tracked sid).isSome := by simp [h]
    constructor
    · simp [ProcessManager.start, hsome]
    · simp [ProcessManager.start, hsome, h]

theorem findProc_append_self (sid : String) (child : SpawnedChild) :
    ∀ l : List (String × SpawnedChild), findProc l sid = none →
      findProc (l ++ [(sid, child)]) sid = some child := by
  intro l
  induction l with
  | nil => intro _; simp [findProc]
  | cons e es ih =>
    intro h
    by_cases hb : e.1 == sid
    · simp [findProc, hb] at h
    · have h2 : findProc es sid = none := by
        simpa [findProc, hb] using h
      simpa [findProc, hb] using ih h2

theorem findProc_deleteProc (sid : String) :
    ∀ l : List (String × SpawnedChild), findProc (deleteProc l sid) sid = none := by
  intro l
  induction l with
  | nil => rfl
  | cons e es ih =>
    by_cases hb : e.1 == sid
    · simpa [deleteProc, List.filter_cons, hb] using ih
    · simpa [deleteProc, List.filter_cons, hb, findProc] using ih

/-- C5 counterexample: a start call whose spawn will fail (missing
binary) on a fresh manager. Immediately after `start` returns, the
service table does hold a record for the id, contradicting the claim
that no record is registered when spawning fails. -/
theorem claim5_counterexample :
    (ProcessManager.start ⟨[]⟩ "postgres" "/bin/postgres" [] ⟨7, true⟩).state.tracked
        "postgres" = some ⟨7, true⟩ ∧
    ¬ ((ProcessManager.start ⟨[]⟩ "postgres" "/bin/postgres" [] ⟨7, true⟩).state.tracked
        "postgres" = none) := by
  constructor
  · rfl
  · intro hcontra
    have h1 : (ProcessManager.start ⟨[]⟩ "postgres" "/bin/postgres" []
        ⟨7, true⟩).state.tracked "postgres" = some ⟨7, true⟩ := rfl
    rw [h1] at hcontra
    exact Option.noConfusion hcontra

/-- C5 as amended: when the id is untracked, `start` registers the child
synchronously even if the spawn is going to fail; the `error` event
handler only logs and leaves the record in place; the record disappears
only once the `close` event for the failed child is delivered. -/
theorem claim5_record_registered_until_close
    (st : ProcessManager) (sid command : String) (args : List String)
    (child : SpawnedChild) (h : st.tracked sid = none) :
    (st.start sid command args child).state.tracked sid = some child ∧
    (∀ err : String,
      ((st.start sid command args child).state.onError sid err).1.tracked sid
        = some child) ∧
    ((st.start sid command args child).state.onClose sid).tracked sid = none := by
  have hns : (st.tracked sid).isSome = false := by simp [h]
  have hreg : (st.start sid command args child).state.tracked sid = some child := by
    simp only [ProcessManager.start, hns, Bool.false_eq_true, if_false]
    exact findProc_append_self sid child st.processes h
  refine ⟨hreg, ?_, ?_⟩
  · intro err
    simpa [ProcessManager.onError] using hreg
  · exact findProc_deleteProc sid _

/-- Witness for the amended C5 at a concrete input: a fresh manager, a
child whose spawn will fail. -/
theorem claim5_witness :
    (⟨[]⟩ : ProcessManager).tracked "postgres" = none ∧
    (ProcessManager.start ⟨[]⟩ "postgres" "/bin/postgres" [] ⟨7, true⟩).state.tracked
        "postgres" = some ⟨7, true⟩ ∧
    ((ProcessManager.start ⟨[]⟩ "postgres" "/bin/postgres" [] ⟨7, true⟩).state.onClose
        "postgres").tracked "postgres" = none := by
  have h := claim5_record_registered_until_close ⟨[]⟩ "postgres" "/bin/postgres" []
    ⟨7, true⟩ rfl
  exact ⟨rfl, h.1, h.2.2⟩

/-- Outcome of a JavaScript async function call: it either resolves
with a value or rejects (throws). -/
inductive JsResult (α : Type) where
  | ok (val : α)
  | thrown (err : String)
deriving DecidableEq, Repr

/-- Log line `startPostgres` emits when the server binary is absent. -/
def binaryNotFoundMsg (binPath : String) : String :=
  "[postgres] Binary not found at " ++ binPath ++ ". Please run setup."

/-- The binary-existence guard at the top of `startPostgres`: when the
binary path does not exist, it logs the not-found line and returns
normally (the async function resolves with undefined), leaving the
service table untouched. The remainder of `startPostgres` (bootstrap,
spawn, readiness, reconciliation) is abstracted as the continuation
`rest`; the guard claims hold for every such remainder. -/
def startPostgresGuard (binaryExists : Bool) (binPath : String) (st : ProcessManager)
    (rest : ProcessManager → JsResult Unit × ProcessManager × List String) :
    JsResult Unit × ProcessManager × List String :=
  if !binaryExists then (JsResult.ok (), st, [binaryNotFoundMsg binPath])
  else rest st

/-- Modelled from the spec: `isRunning(serviceId) -> bool`. The method is
called by the `get-postgres-status` IPC handler in `main.js` but its
definition is not among the repository's source files; the spec's
external-interface section declares it. Modelled as whether a record for
the service id is currently tracked in the supervisor's table. -/
def isRunning (st : ProcessManager) (sid : String) : Bool :=
  (st.tracked sid).isSome

/-- Reply of the `start-postgres` IPC handler. -/
structure IpcReply where
  success : Bool
  error : Option String
deriving DecidableEq, Repr

/-- The `start-postgres` IPC handler: success when `startPostgres`
resolves, failure with the message when it rejects. -/
def startPostgresIpcHandler (r : JsResult Unit) : IpcReply :=
  match r with
  | JsResult.ok _ => { success := true, error := none }
  | JsResult.thrown msg => { success := false, error := some msg }

/-- C6: after a start whose server binary path is absent, the only log
output is the configuration-error line, no record is registered (the
table is unchanged), and `isRunning` for the service id returns false
(the id being untracked beforehand). `isRunning` is Bool-valued by its
type. -/
theorem claim6_binary_absent_isRunning_false
    (binPath : String) (st : ProcessManager)
    (rest : ProcessManager → JsResult Unit × ProcessManager × List String)
    (h : st.tracked "postgres" = none) :
    isRunning (startPostgresGuard false binPath st rest).2.1 "postgres" = false ∧
    (startPostgresGuard false binPath st rest).2.1 = st ∧
    (startPostgresGuard false binPath st rest).2.2 = [binaryNotFoundMsg binPath] := by
  refine ⟨?_, rfl, rfl⟩
  simp [startPostgresGuard, isRunning, h]

/-- Witness for C6 at a concrete input: fresh manager, absent binary. -/
theorem claim6_witness :
    (⟨[]⟩ : ProcessManager).tracked "postgres" = none ∧
    isRunning (startPostgresGuard false "/bin/postgres" ⟨[]⟩
        (fun st => (JsResult.ok (), st, []))).2.1 "postgres" = false :=
  ⟨rfl, (claim6_binary_absent_isRunning_false "/bin/postgres" ⟨[]⟩
    (fun st => (JsResult.ok (), st, [])) rfl).1⟩

/-- C10: with the server binary absent, `startPostgres` resolves rather
than throwing, so the `start-postgres` IPC handler reports success: true
even though nothing was started; the state is unchanged and the only
failure signal is the binary-not-found log line. -/
theorem claim10_binary_absent_reports_success :
    ∀ (binPath : String) (st : ProcessManager)
      (rest : ProcessManager → JsResult Unit × ProcessManager × List String),
      startPostgresGuard false binPath st rest
        = (JsResult.ok (), st, [binaryNotFoundMsg binPath]) ∧
      startPostgresIpcHandler (startPostgresGuard false binPath st rest).1
        = { success := true, error := none } := by
  intro binPath st rest
  exact ⟨rfl, rfl⟩

/-- Polling interval of `waitForPort` in milliseconds (`setInterval` period). -/
def pollIntervalMs : Nat := 500

/-- Wall-clock deadline of `waitForPort` in milliseconds
(`Date.now() + 30000`). -/
def waitDeadlineMs : Nat := 30000

/-- Per-attempt socket timeout in milliseconds (`socket.setTimeout(200)`). -/
def socketTimeoutMs : Nat := 200

/-- Rejection message of `waitForPort`. -/
def timeoutMsg : String := "Timeout waiting for Postgres port"

/-- How the promise returned by `waitForPort` settles. -/
inductive PortWaitOutcome where
  | resolved (tick : Nat)
  | rejected (err : String)
deriving DecidableEq, Repr

/-- Discretization of the `setInterval` loop of `waitForPort` over poll
ticks. Tick k fires at 500·k ms after the call (the first tick at
500 ms). On each tick the loop launches a fresh connection attempt and
then synchronously checks `Date.now() > timeout`, rejecting when the
check fires; a successful attempt's `connect` event lands within the
200 ms socket timeout, i.e. strictly after the synchronous deadline
check of its own tick and before the next tick. `connectOk k` says
whether the attempt launched at tick k would connect. The fuel argument
only bounds the recursion: tick 61 is the first with 500·k > 30000, so
fuel 61 from tick 1 always reaches a settlement, and the fuel-exhausted
fallback returns the same rejection the deadline branch does. -/
def waitForPortLoop (connectOk : Nat → Bool) : Nat → Nat → PortWaitOutcome
  | _, 0 => PortWaitOutcome.rejected timeoutMsg
  | k, fuel + 1 =>
    if waitDeadlineMs < pollIntervalMs * k then PortWaitOutcome.rejected timeoutMsg
    else if connectOk k then PortWaitOutcome.resolved k
    else waitForPortLoop connectOk (k + 1) fuel

/-- The settled outcome of `waitForPort(port)` for a given connection
behaviour of the polled port. -/
def waitForPort (connectOk : Nat → Bool) : PortWaitOutcome :=
  waitForPortLoop connectOk 1 61

/-- Upper bound, in milliseconds after the call, at which the promise of
`waitForPort` settles: a resolution at tick k lands within that
attempt's socket timeout; the rejection fires synchronously on tick 61. -/
def settleTimeMs (connectOk : Nat → Bool) : Nat :=
  match waitForPort connectOk with
  | PortWaitOutcome.resolved k => pollIntervalMs * k + socketTimeoutMs
  | PortWaitOutcome.rejected _ => pollIntervalMs * 61

theorem waitForPortLoop_resolved (connectOk : Nat → Bool) :
    ∀ (fuel k0 k : Nat),
      waitForPortLoop connectOk k0 fuel = PortWaitOutcome.resolved k →
      connectOk k = true ∧ k0 ≤ k ∧ pollIntervalMs * k ≤ waitDeadlineMs ∧
      ∀ j, k0 ≤ j → j < k → connectOk j = false := by
  intro fuel
  induction fuel with
  | zero =>
    intro k0 k h
    simp [waitForPortLoop] at h
  | succ n ih =>
    intro k0 k h
    rw [waitForPortLoop] at h
    by_cases hd : waitDeadlineMs < pollIntervalMs * k0
    · rw [if_pos hd] at h
      exact PortWaitOutcome.noConfusion h
    · rw [if_neg hd] at h
      by_cases hc : connectOk k0
      · rw [if_pos hc] at h
        have hk : k = k0 := (PortWaitOutcome.resolved.injEq _ _).mp h.symm
        subst hk
        exact ⟨hc, Nat.le_refl _, Nat.le_of_not_lt hd, fun j hj1 hj2 => absurd hj1 (by omega)⟩
      · rw [if_neg hc] at h
        obtain ⟨h1, h2, h3, h4⟩ := ih (k0 + 1) k h
        refine ⟨h1, by omega, h3, ?_⟩
        intro j hj1 hj2
        rcases Nat.eq_or_lt_of_le hj1 with hj | hj
        · subst hj; exact Bool.eq_false_iff.mpr hc
        · exact h4 j hj hj2

theorem waitForPortLoop_rejected (connectOk : Nat → Bool) :
    ∀ (fuel k0 : Nat),
      (∀ j, k0 ≤ j → pollIntervalMs * j ≤ waitDeadlineMs → connectOk j = false) →
      waitForPortLoop connectOk k0 fuel = PortWaitOutcome.rejected timeoutMsg := by
  intro fuel
  induction fuel with
  | zero => intro k0 _; rfl
  | succ n ih =>
    intro k0 h
    rw [waitForPortLoop]
    by_cases hd : waitDeadlineMs < pollIntervalMs * k0
    · rw [if_pos hd]
    · rw [if_neg hd]
      have hc : connectOk k0 = false := h k0 (Nat.le_refl _) (Nat.le_of_not_lt hd)
      rw [hc]
      simp only [Bool.false_eq_true, if_false]
      exact ih (k0 + 1) (fun j hj => h j (by omega))

theorem waitForPortLoop_resolves (connectOk : Nat → Bool) :
    ∀ (fuel k0 k : Nat), k0 ≤ k → pollIntervalMs * k ≤ waitDeadlineMs →
      connectOk k = true → (∀ j, k0 ≤ j → j < k → connectOk j = false) →
      k + 1 ≤ k0 + fuel →
      waitForPortLoop connectOk k0 fuel = PortWaitOutcome.resolved k := by
  intro fuel
  induction fuel with
  | zero => intro k0 k h1 _ _ _ hf; omega
  | succ n ih =>
    intro k0 k h1 hd hs hfail hf
    rw [waitForPortLoop]
    have hmono : pollIntervalMs * k0 ≤ pollIntervalMs * k := Nat.mul_le_mul_left _ h1
    have hk0d : ¬ (waitDeadlineMs < pollIntervalMs * k0) := by omega
    rw [if_neg hk0d]
    rcases Nat.eq_or_lt_of_le h1 with heq | hlt
    · subst heq
      rw [if_pos hs]
    · have hc0 : connectOk k0 = false := hfail k0 (Nat.le_refl _) hlt
      rw [hc0]
      simp only [Bool.false_eq_true, if_false]
      exact ih (k0 + 1) k hlt hd hs (fun j hj hjk => hfail j (by omega) hjk) (by omega)

/-- C4: the readiness poll resolves on the first polling tick whose
connection attempt succeeds: any in-deadline tick with a successful
attempt forces the promise to resolve, and it resolves exactly at the
earliest such tick; conversely a resolution only ever happens at a
first successful in-deadline tick; for every run in which no attempt
within the 30 s deadline succeeds it rejects with the timeout error;
and the promise always settles no later than the deadline plus one
500 ms polling interval, each attempt being bounded by its own 200 ms
socket timeout (the bound `settleTimeMs` already charges a resolving
attempt its full socket timeout). -/
theorem claim4_waitForPort_behavior :
    ∀ connectOk : Nat → Bool,
      (∀ k, 1 ≤ k → pollIntervalMs * k ≤ waitDeadlineMs → connectOk k = true →
        ∃ j, 1 ≤ j ∧ j ≤ k ∧ pollIntervalMs * j ≤ waitDeadlineMs ∧
          connectOk j = true ∧
          waitForPort connectOk = PortWaitOutcome.resolved j) ∧
      (∀ k, 1 ≤ k → pollIntervalMs * k ≤ waitDeadlineMs → connectOk k = true →
        (∀ j, 1 ≤ j → j < k → connectOk j = false) →
        waitForPort connectOk = PortWaitOutcome.resolved k) ∧
      (∀ k, waitForPort connectOk = PortWaitOutcome.resolved k →
        connectOk k = true ∧ 1 ≤ k ∧ pollIntervalMs * k ≤ waitDeadlineMs ∧
        ∀ j, 1 ≤ j → j < k → connectOk j = false) ∧
      ((∀ k, 1 ≤ k → pollIntervalMs * k ≤ waitDeadlineMs → connectOk k = false) →
        waitForPort connectOk = PortWaitOutcome.rejected timeoutMsg) ∧
      settleTimeMs connectOk ≤ waitDeadlineMs + pollIntervalMs := by
  intro connectOk
  have hfirst : ∀ k, 1 ≤ k → pollIntervalMs * k ≤ waitDeadlineMs →
      connectOk k = true → (∀ j, 1 ≤ j → j < k → connectOk j = false) →
      waitForPort connectOk = PortWaitOutcome.resolved k := by
    intro k hk1 hkd hks hkfail
    have hk60 : k ≤ 60 := by
      simp only [pollIntervalMs, waitDeadlineMs] at hkd
      omega
    exact waitForPortLoop_resolves connectOk 61 1 k hk1 hkd hks hkfail (by omega)
  refine ⟨?_, hfirst, ?_, ?_, ?_⟩
  · intro k hk1 hkd hks
    have hex : ∃ n, 1 ≤ n ∧ connectOk n = true := ⟨k, hk1, hks⟩
    have hm := Nat.find_spec hex
    have hmk : Nat.find hex ≤ k := Nat.find_min' hex ⟨hk1, hks⟩
    have hmd : pollIntervalMs * Nat.find hex ≤ waitDeadlineMs :=
      le_trans (Nat.mul_le_mul_left _ hmk) hkd
    have hmfail : ∀ j, 1 ≤ j → j < Nat.find hex → connectOk j = false := by
      intro j hj1 hjm
      by_contra hcon
      have hjt : connectOk j = true := by
        cases hval : connectOk j
        · exact absurd hval hcon
        · rfl
      exact absurd ⟨hj1, hjt⟩ (Nat.find_min hex hjm)
    exact ⟨Nat.find hex, hm.1, hmk, hmd, hm.2,
      hfirst (Nat.find hex) hm.1 hmd hm.2 hmfail⟩
  · intro k h
    exact waitForPortLoop_resolved connectOk 61 1 k h
  · intro h
    exact waitForPortLoop_rejected connectOk 61 1 (fun j hj => h j hj)
  · unfold settleTimeMs
    cases hcase : waitForPort connectOk with
    | resolved k =>
      have hb := waitForPortLoop_resolved connectOk 61 1 k hcase
      have : pollIntervalMs * k ≤ waitDeadlineMs := hb.2.2.1
      simp only [pollIntervalMs, waitDeadlineMs, socketTimeoutMs] at *
      omega
    | rejected e =>
      simp [pollIntervalMs, waitDeadlineMs]

/-- A path inside the data directory, as its list of components. -/
abbrev FsPath := List String

/-- A filesystem entry of the data directory: a regular file with its
contents, or a directory. -/
inductive FsEntry where
  | file (content : String)
  | dir
deriving DecidableEq, Repr

/-- The observable state of the data directory: the entries below its
root, keyed by relative path. The root itself always exists
(`fs.ensureDir(dataDir)` runs first). -/
structure DirState where
  entries : List (FsPath × FsEntry)
deriving DecidableEq, Repr

/-- The `fs.pathExists` probe, relative to the data directory. -/
def pathExistsb (s : DirState) (p : FsPath) : Bool :=
  s.entries.any (fun e => e.1 == p)

/-- Whether `p` is an immediate child of directory `d` (what
`fs.readdir d` lists). -/
def isChildOfb (d p : FsPath) : Bool :=
  p.length == d.length + 1 && p.take d.length == d

/-- Number of entries `fs.readdir` reports for a directory. -/
def readdirCount (s : DirState) (d : FsPath) : Nat :=
  (s.entries.filter (fun e => isChildOfb d e.1)).length

/-- The marker file `PG_VERSION`. -/
def versionPath : FsPath := ["PG_VERSION"]

/-- The primary config file `postgresql.conf`. -/
def confPath : FsPath := ["postgresql.conf"]

/-- The primary storage subdirectory `base`. -/
def baseDir : FsPath := ["base"]

/-- The bookkeeping subdirectory `global`. -/
def globalDir : FsPath := ["global"]

/-- The `requiredDirs` checklist of `startPostgres`, parent components
listed before their children exactly as in the source. -/
def requiredDirs : List FsPath :=
  [["base"], ["global"], ["pg_commit_ts"], ["pg_dynshmem"], ["pg_logical"],
   ["pg_logical", "mappings"], ["pg_logical", "snapshots"], ["pg_multixact"],
   ["pg_multixact", "members"], ["pg_multixact", "offsets"], ["pg_notify"],
   ["pg_replslot"], ["pg_serial"], ["pg_snapshots"], ["pg_stat"],
   ["pg_stat_tmp"], ["pg_subtrans"], ["pg_tblspc"], ["pg_twophase"],
   ["pg_wal"], ["pg_wal", "archive_status"], ["pg_xact"]]

/-- The repair loop body: `if (!await fs.pathExists(fullPath)) await
fs.ensureDir(fullPath)` (the subsequent chmod changes permission bits
only, which the entry model does not carry). Parents precede children in
`requiredDirs`, so creating the single named path suffices. -/
def ensureDir (s : DirState) (p : FsPath) : DirState :=
  if pathExistsb s p then s else ⟨s.entries ++ [(p, FsEntry.dir)]⟩

/-- The repair pass of `startPostgres`: only attempted when the marker
file exists; walks the checklist and creates each missing entry. -/
def repairMissingDirs (s : DirState) : DirState :=
  if pathExistsb s versionPath then requiredDirs.foldl ensureDir s else s

/-- The initialization check of `startPostgres` (on the post-repair
state): marker and config must exist; then `base` must exist, hold at
least 2 entries, and `global` must exist, otherwise the flag is cleared
and the directory is re-initialized. -/
def isInitialized (s : DirState) : Bool :=
  if pathExistsb s versionPath && pathExistsb s confPath then
    if pathExistsb s baseDir then
      if decide (readdirCount s baseDir < 2) || !pathExistsb s globalDir then
        false
      else
        true
    else false
  else false

/-- `fs.emptyDir(dataDir)`: removes every entry, keeps the root. -/
def emptyDir : DirState := ⟨[]⟩

/-- The directory pipeline of `startPostgres`: repair pass, then the
initialization check; when the check fails, the contents are cleared
(when `readdir` reports any) and `initdb` runs. Returns the directory
state the next step (initdb when the flag is true, otherwise the server
itself) observes, and whether `initdb` is run. -/
def startPostgresDataDir (s : DirState) : DirState × Bool :=
  let s1 := repairMissingDirs s
  if isInitialized s1 then (s1, false)
  else (if 0 < readdirCount s1 [] then emptyDir else s1, true)

/-- A directory state a real filesystem can exhibit: any entry below the
root makes `readdir` of the root non-empty (every nested path has a
root-level ancestor that readdir lists). -/
abbrev RootedDir (s : DirState) : Prop :=
  s.entries ≠ [] → readdirCount s [] ≠ 0

theorem foldl_ensureDir_mem (ps : List FsPath) :
    ∀ (s : DirState) (pe : FsPath × FsEntry),
      pe ∈ s.entries → pe ∈ (ps.foldl ensureDir s).entries := by
  induction ps with
  | nil => intro s pe h; exact h
  | cons p rest ih =>
    intro s pe h
    refine ih (ensureDir s p) pe ?_
    unfold ensureDir
    by_cases hp : pathExistsb s p
    · simpa [hp] using h
    · simp only [hp, Bool.false_eq_true, if_false]
      exact List.mem_append_left _ h

theorem pathExistsb_of_mem (s : DirState) (pe : FsPath × FsEntry)
    (h : pe ∈ s.entries) : pathExistsb s pe.1 = true := by
  unfold pathExistsb
  rw [List.any_eq_true]
  exact ⟨pe, h, by simp⟩

theorem ensureDir_pathExistsb_mono (s : DirState) (p q : FsPath)
    (h : pathExistsb s q = true) : pathExistsb (ensureDir s p) q = true := by
  unfold ensureDir
  by_cases hp : pathExistsb s p
  · simpa [hp] using h
  · simp only [hp, Bool.false_eq_true, if_false]
    unfold pathExistsb at h ⊢
    rw [List.any_eq_true] at h ⊢
    obtain ⟨e, he, hq⟩ := h
    exact ⟨e, List.mem_append_left _ he, hq⟩

theorem foldl_ensureDir_mem_inv (ps : List FsPath) :
    ∀ (s : DirState) (pe : FsPath × FsEntry),
      pe ∈ (ps.foldl ensureDir s).entries →
      pe ∈ s.entries ∨
        (pe.2 = FsEntry.dir ∧ pe.1 ∈ ps ∧ pathExistsb s pe.1 = false) := by
  induction ps with
  | nil => intro s pe h; exact Or.inl h
  | cons p rest ih =>
    intro s pe h
    rcases ih (ensureDir s p) pe h with hmem | ⟨hdir, hin, hfalse⟩
    · unfold ensureDir at hmem
      by_cases hp : pathExistsb s p
      · rw [if_pos hp] at hmem
        exact Or.inl hmem
      · simp only [hp, Bool.false_eq_true, if_false] at hmem
        rcases List.mem_append.mp hmem with hl | hr
        · exact Or.inl hl
        · have hpe : pe = (p, FsEntry.dir) := by simpa using hr
          subst hpe
          exact Or.inr ⟨rfl, List.mem_cons_self _ _, Bool.eq_false_iff.mpr hp⟩
    · have hsfalse : pathExistsb s pe.1 = false := by
        by_contra hcon
        have : pathExistsb s pe.1 = true := by
          cases hval : pathExistsb s pe.1
          · exact absurd hval hcon
          · rfl
        rw [ensureDir_pathExistsb_mono s p pe.1 this] at hfalse
        exact Bool.noConfusion hfalse
      exact Or.inr ⟨hdir, List.mem_cons_of_mem _ hin, hsfalse⟩

theorem repairMissingDirs_mem (s : DirState) (pe : FsPath × FsEntry)
    (h : pe ∈ s.entries) : pe ∈ (repairMissingDirs s).entries := by
  unfold repairMissingDirs
  by_cases hv : pathExistsb s versionPath
  · rw [if_pos hv]
    exact foldl_ensureDir_mem requiredDirs s pe h
  · simpa [hv] using h

theorem repairMissingDirs_mem_inv (s : DirState) (pe : FsPath × FsEntry)
    (h : pe ∈ (repairMissingDirs s).entries) :
    pe ∈ s.entries ∨
      (pe.2 = FsEntry.dir ∧ pe.1 ∈ requiredDirs ∧ pathExistsb s pe.1 = false) := by
  unfold repairMissingDirs at h
  by_cases hv : pathExistsb s versionPath
  · rw [if_pos hv] at h
    exact foldl_ensureDir_mem_inv requiredDirs s pe h
  · simp only [hv, Bool.false_eq_true, if_false] at h
    exact Or.inl h

/-- C7: the in-place repair is non-destructive. On a directory holding
the marker file: every pre-existing entry survives the repair pass
(nothing is deleted); a path holds a file with given contents after
repair exactly when it did before (files are byte-for-byte unchanged,
none created); and every entry of the repaired directory either
pre-existed or is a newly created directory from the checklist that was
missing before. -/
theorem claim7_repair_is_nondestructive
    (s : DirState) (hmarker : pathExistsb s versionPath = true) :
    (∀ pe : FsPath × FsEntry, pe ∈ s.entries → pe ∈ (repairMissingDirs s).entries) ∧
    (∀ (p : FsPath) (c : String),
      (p, FsEntry.file c) ∈ (repairMissingDirs s).entries ↔
        (p, FsEntry.file c) ∈ s.entries) ∧
    (∀ pe : FsPath × FsEntry, pe ∈ (repairMissingDirs s).entries →
      pe ∈ s.entries ∨
        (pe.2 = FsEntry.dir ∧ pe.1 ∈ requiredDirs ∧ pathExistsb s pe.1 = false)) := by
  refine ⟨repairMissingDirs_mem s, ?_, repairMissingDirs_mem_inv s⟩
  intro p c
  constructor
  · intro h
    rcases repairMissingDirs_mem_inv s (p, FsEntry.file c) h with hmem | ⟨hdir, _, _⟩
    · exact hmem
    · exact FsEntry.noConfusion hdir
  · intro h
    exact repairMissingDirs_mem s (p, FsEntry.file c) h

/-- Concrete directory for the C7 witness: marker plus a config file. -/
def repairWitnessDir : DirState :=
  ⟨[(["PG_VERSION"], FsEntry.file "14"), (["postgresql.conf"], FsEntry.file "conf")]⟩

/-- Witness for C7 at a concrete input: the pre-existing config file
survives the repair pass with its contents intact. -/
theorem claim7_witness :
    pathExistsb repairWitnessDir versionPath = true ∧
    (["postgresql.conf"], FsEntry.file "conf") ∈ (repairMissingDirs repairWitnessDir).entries := by
  refine ⟨by decide, ?_⟩
  exact (claim7_repair_is_nondestructive repairWitnessDir (by decide)).1
    (["postgresql.conf"], FsEntry.file "conf") (by decide)

/-- C1: the directory is classified as initialized precisely when the
marker file and the primary config file exist, the `base` subdirectory
exists and holds at least 2 entries, and the `global` subdirectory
exists; and `startPostgres` runs the re-initialization branch exactly
when that check fails on the post-repair state. -/
theorem claim1_initialized_iff :
    ∀ s : DirState,
      (isInitialized s = true ↔
        (pathExistsb s versionPath = true ∧ pathExistsb s confPath = true ∧
         pathExistsb s baseDir = true ∧ 2 ≤ readdirCount s baseDir ∧
         pathExistsb s globalDir = true)) ∧
      (startPostgresDataDir s).2 = !isInitialized (repairMissingDirs s) := by
  intro s
  constructor
  · unfold isInitialized
    cases hv : pathExistsb s versionPath <;>
      cases hc : pathExistsb s confPath <;>
        cases hb : pathExistsb s baseDir <;>
          cases hg : pathExistsb s globalDir <;>
            simp [hv, hc, hb, hg]
  · unfold startPostgresDataDir
    by_cases hi : isInitialized (repairMissingDirs s) <;> simp [hi]

theorem versionPath_mem_of_pathExistsb (s : DirState)
    (h : pathExistsb s versionPath = true) :
    ∃ e : FsEntry, (versionPath, e) ∈ s.entries := by
  unfold pathExistsb at h
  rw [List.any_eq_true] at h
  obtain ⟨pe, hmem, hbeq⟩ := h
  have hp : pe.1 = versionPath := by simpa using hbeq
  exact ⟨pe.2, by rw [← hp]; exact hmem⟩

theorem readdirCount_root_pos_of_mem (s : DirState) (e : FsEntry)
    (h : (versionPath, e) ∈ s.entries) : readdirCount s [] ≠ 0 := by
  unfold readdirCount
  have hchild : isChildOfb [] (versionPath, e).1 = true := rfl
  have hmem : (versionPath, e) ∈ s.entries.filter (fun pe => isChildOfb [] pe.1) :=
    List.mem_filter.mpr ⟨h, hchild⟩
  have hpos : 0 < (s.entries.filter (fun pe => isChildOfb [] pe.1)).length :=
    List.length_pos.mpr (List.ne_nil_of_mem hmem)
  omega

theorem rootedDir_repairMissingDirs (s : DirState) (h : RootedDir s) :
    RootedDir (repairMissingDirs s) := by
  unfold repairMissingDirs
  by_cases hv : pathExistsb s versionPath
  · rw [if_pos hv]
    intro _
    obtain ⟨e, hmem⟩ := versionPath_mem_of_pathExistsb s hv
    exact readdirCount_root_pos_of_mem _ e
      (foldl_ensureDir_mem requiredDirs s (versionPath, e) hmem)
  · simpa [hv] using h

/-- C3: whenever the pipeline decides the directory needs
re-initialization (the returned flag says `initdb` runs), the state
`initdb` is run against holds no entries at all: the contents were
emptied first (or the directory already was empty), so `initdb` never
sees leftovers of a previous partial bootstrap. `RootedDir` restricts
attention to directory states a real filesystem can exhibit. -/
theorem claim3_reinit_runs_on_empty_dir
    (s : DirState) (hroot : RootedDir s)
    (hrun : (startPostgresDataDir s).2 = true) :
    ((startPostgresDataDir s).1).entries = [] := by
  unfold startPostgresDataDir at hrun ⊢
  by_cases hi : isInitialized (repairMissingDirs s)
  · simp [hi] at hrun
  · simp only [hi, Bool.false_eq_true, if_false]
    by_cases hcount : 0 < readdirCount (repairMissingDirs s) []
    · simp [hcount, emptyDir]
    · simp only [hcount, if_false]
      by_contra hne
      exact absurd (rootedDir_repairMissingDirs s hroot hne) (by omega)

/-- Concrete directory for the C3 witness: the marker alone survives of
an interrupted bootstrap, so the check fails and the contents are
purged before `initdb`. -/
def reinitWitnessDir : DirState := ⟨[(["PG_VERSION"], FsEntry.file "14")]⟩

/-- Witness for C3 at a concrete input. -/
theorem claim3_witness :
    RootedDir reinitWitnessDir ∧
    (startPostgresDataDir reinitWitnessDir).2 = true ∧
    ((startPostgresDataDir reinitWitnessDir).1).entries = [] :=
  ⟨by decide, by decide,
    claim3_reinit_runs_on_empty_dir reinitWitnessDir (by decide) (by decide)⟩

/-- The environment the extension phase of `ensureDatabaseFixed`
observes: the live-catalog answer of `queryAvailableExtensions`
(`SELECT name FROM pg_available_extensions WHERE name IN (...)`), the
four filesystem probes of the candidate control files
(`share/extension` and `share/postgresql/extension` layouts), and
whether the postgis check-and-enable try block raises (the
`pg_extension` count query or the `CREATE EXTENSION IF NOT EXISTS
postgis` command failing). -/
structure ExtPhaseEnv where
  catalogAvail : List String
  postgisControl1 : Bool
  postgisControl2 : Bool
  pgroutingControl1 : Bool
  pgroutingControl2 : Bool
  postgisTryFails : Bool
deriving DecidableEq, Repr

/-- The error a JavaScript read of `foundControlPath` raises in the
postgis catch block: that constant is declared inside the earlier
`if (postgisControlExists)` block and is out of scope there. -/
def referenceErrorMsg : String := "ReferenceError: foundControlPath is not defined"

/-- What the extension phase did: whether the postgis and the pgrouting
check-and-enable steps were reached, and the error that escaped
`ensureDatabaseFixed`, if any (caught only by the outer try of
`startPostgres`). -/
structure ExtPhaseResult where
  postgisProcessed : Bool
  pgroutingProcessed : Bool
  abortedWith : Option String
deriving DecidableEq, Repr

/-- The extension phase of `ensureDatabaseFixed`, branch by branch:

* the phase returns early (after logging both candidate control-file
  locations) when the live catalog does not report postgis — the
  control-file probes feed only those log lines;
* otherwise the postgis check-and-enable try block runs; when it raises,
  its catch block logs three lines and then evaluates a template literal
  reading `foundControlPath`, which is block-scoped inside the earlier
  `if (postgisControlExists)` branch, so the read throws a
  `ReferenceError` that escapes `ensureDatabaseFixed` and the pgrouting
  section never runs;
* otherwise the pgrouting check-and-enable step runs exactly when one of
  the two pgrouting control files exists on the filesystem (the catalog
  answer for pgrouting is not consulted);
* otherwise pgrouting is skipped with an it-is-optional log line. -/
def ensureExtensionsPhase (e : ExtPhaseEnv) : ExtPhaseResult :=
  if !(e.catalogAvail.contains "postgis") then
    { postgisProcessed := false, pgroutingProcessed := false, abortedWith := none }
  else if e.postgisTryFails then
    { postgisProcessed := true, pgroutingProcessed := false
      abortedWith := some referenceErrorMsg }
  else if e.pgroutingControl1 || e.pgroutingControl2 then
    { postgisProcessed := true, pgroutingProcessed := true, abortedWith := none }
  else
    { postgisProcessed := true, pgroutingProcessed := false, abortedWith := none }

/-- Extension environment where the catalog reports pgrouting available
and a pgrouting control file exists on disk. -/
def catalogAndFsEnv : ExtPhaseEnv :=
  { catalogAvail := ["pgrouting", "postgis"], postgisControl1 := true
    postgisControl2 := true, pgroutingControl1 := true, pgroutingControl2 := true
    postgisTryFails := false }

/-- Same catalog answer as `catalogAndFsEnv`, but no pgrouting control
file on disk. -/
def catalogOnlyEnv : ExtPhaseEnv :=
  { catalogAvail := ["pgrouting", "postgis"], postgisControl1 := true
    postgisControl2 := true, pgroutingControl1 := false, pgroutingControl2 := false
    postgisTryFails := false }

/-- C8 counterexample: two runs with the identical live-catalog answer
(both reporting pgrouting available) differ in whether pgrouting is
enabled, depending only on the filesystem control-file probe — so the
decision to attempt enabling a desired extension is not a function of
the catalog query result alone, and the filesystem probe is not used
solely for diagnostic logging. -/
theorem claim8_counterexample :
    catalogAndFsEnv.catalogAvail = catalogOnlyEnv.catalogAvail ∧
    (ensureExtensionsPhase catalogAndFsEnv).pgroutingProcessed = true ∧
    (ensureExtensionsPhase catalogOnlyEnv).pgroutingProcessed = false := by
  refine ⟨rfl, rfl, rfl⟩

/-- C8 as amended: the decision to process the primary extension
(postgis) is a function of the catalog query result only (the postgis
control-file probes feed only diagnostic logging), while the pgrouting
step additionally requires a pgrouting control file to exist in one of
the two candidate directories, and that the postgis try block did not
abort the phase. -/
theorem claim8_amended_decisions :
    (∀ e1 e2 : ExtPhaseEnv, e1.catalogAvail = e2.catalogAvail →
      (ensureExtensionsPhase e1).postgisProcessed
        = (ensureExtensionsPhase e2).postgisProcessed) ∧
    (∀ e : ExtPhaseEnv, (ensureExtensionsPhase e).postgisProcessed
        = e.catalogAvail.contains "postgis") ∧
    (∀ e : ExtPhaseEnv, (ensureExtensionsPhase e).pgroutingProcessed
        = (e.catalogAvail.contains "postgis" && !e.postgisTryFails
            && (e.pgroutingControl1 || e.pgroutingControl2))) := by
  have hpg : ∀ e : ExtPhaseEnv, (ensureExtensionsPhase e).postgisProcessed
      = e.catalogAvail.contains "postgis" := by
    intro e
    unfold ensureExtensionsPhase
    cases hc : e.catalogAvail.contains "postgis" <;>
      cases hf : e.postgisTryFails <;>
        cases hr : e.pgroutingControl1 || e.pgroutingControl2 <;>
          simp [hc, hf, hr]
  refine ⟨fun e1 e2 h => ?_, hpg, fun e => ?_⟩
  · rw [hpg e1, hpg e2, h]
  · unfold ensureExtensionsPhase
    cases hc : e.catalogAvail.contains "postgis" <;>
      cases hf : e.postgisTryFails <;>
        cases hr : e.pgroutingControl1 || e.pgroutingControl2 <;>
          simp [hc, hf, hr]

/-- Environment of the C9 failing run: the catalog reports both
extensions available, a pgrouting control file exists, and the postgis
enable attempt fails. -/
def postgisEnableFailEnv : ExtPhaseEnv :=
  { catalogAvail := ["postgis", "pgrouting"], postgisControl1 := true
    postgisControl2 := false, pgroutingControl1 := true, pgroutingControl2 := false
    postgisTryFails := true }

/-- C9, evaluated at the failing input: when the postgis enable attempt
fails, the catch block's read of the out-of-scope `foundControlPath`
raises a ReferenceError that escapes `ensureDatabaseFixed`, so the
pgrouting step is never reached even though its control file exists and
the catalog reports it — contradicting the spec's per-extension
soft-failure design, which the catch block's own logging shows is the
intent. -/
theorem claim9_enable_failure_aborts_phase :
    ensureExtensionsPhase postgisEnableFailEnv =
      { postgisProcessed := true, pgroutingProcessed := false
        abortedWith := some referenceErrorMsg } := by
  rfl
